import Mathlib

/-!
Verification of the isoterm acquisition engine.

A shallow embedding of the provisioning core of the `isoterm` repository
(`src/main.rs`, `src/provision/mod.rs`, `src/provision.rs`) together with
theorems settling the frozen claims about it.

Modelling conventions:
* Rust `&str` values are Lean `String`s; byte indices computed by
  `str::find` are modelled as character indices (all paths and asset
  names involved are ASCII).
* Filesystem paths handed to the archive extractors are modelled either
  as raw strings (where the code itself works on `to_str()` output) or
  as lists of components (where the code works on `Components`).
* Fallible Rust functions returning `Result<T, E>` become
  `Except String T`; `anyhow` context layering is modelled explicitly
  where a claim depends on it.
* Ambient effects (the glibc probe, the network, the progress bar, the
  OS symlink call) become explicit input parameters or oracles, so the
  functions stay pure and executable.
-/

namespace Isoterm

/-! ## String utilities

`str::find` / `str::contains` from Rust, modelled on character lists.
-/

/-- Index of the first occurrence of `pat` in `l` (Rust `str::find`). -/
def firstOccurIdx (pat : List Char) : List Char → Option Nat
  | [] => if pat.isPrefixOf [] then some 0 else none
  | c :: tl =>
    if pat.isPrefixOf (c :: tl) then some 0
    else (firstOccurIdx pat tl).map (· + 1)

/-- Rust `str::find` on strings, returning a character index. -/
def strFind (hay pat : String) : Option Nat :=
  firstOccurIdx pat.toList hay.toList

/-- Rust `str::contains` on strings. -/
def containsSubstr (hay pat : String) : Bool :=
  (strFind hay pat).isSome

theorem firstOccurIdx_sound {pat l : List Char} {i : Nat}
    (h : firstOccurIdx pat l = some i) : pat.isPrefixOf (l.drop i) := by
  induction l generalizing i with
  | nil =>
    unfold firstOccurIdx at h
    split at h
    · simp_all
    · simp at h
  | cons c tl ih =>
    unfold firstOccurIdx at h
    split at h
    · rename_i hpre
      obtain rfl : i = 0 := by simpa using h.symm
      simpa using hpre
    · obtain ⟨j, hj, rfl⟩ := Option.map_eq_some'.mp h
      simpa using ih hj

theorem firstOccurIdx_isSome_iff {pat l : List Char} :
    (firstOccurIdx pat l).isSome ↔ pat <:+: l := by
  induction l with
  | nil =>
    unfold firstOccurIdx
    split
    · rename_i hpre
      simp only [ List.isPrefixOf_iff_prefix] at hpre
      simp only [Option.isSome_some, true_iff]
      exact hpre.isInfix
    · rename_i hpre
      simp only [ List.isPrefixOf_iff_prefix] at hpre
      constructor
      · intro h; simp at h
      · intro h
        exact absurd (by simp [List.eq_nil_of_infix_nil h]) hpre
  | cons c tl ih =>
    unfold firstOccurIdx
    split
    · rename_i hpre
      simp only [ List.isPrefixOf_iff_prefix] at hpre
      simp only [Option.isSome_some, true_iff]
      exact hpre.isInfix
    · rename_i hpre
      simp only [ List.isPrefixOf_iff_prefix] at hpre
      rw [Option.isSome_map', ih, List.infix_cons_iff]
      constructor
      · exact Or.inr
      · rintro (h | h)
        · exact absurd h hpre
        · exact h

/-! ## Release assets and the asset matcher

Embedding of `find_best_asset_match` (`src/provision/mod.rs`,
lines 498–596).  A release asset is the slice of the GitHub JSON the
function reads: `asset["name"].as_str()` and
`asset["browser_download_url"].as_str()`, each of which may be absent
or non-string (hence `Option`).

The function probes the ambient glibc version (`get_glibc_version`,
an `ldd --version` subprocess) to decide whether "gnu" tokens are
preferred over "musl" ones; that probe outcome enters the embedding as
the explicit boolean `gnuPreferred` (`true` when the probe reports a
glibc at or above 2.35; `false` when it reports an older one or
fails). -/

/-- Rust `str::to_lowercase` (all inputs involved are ASCII). -/
def toLowerString (s : String) : String :=
  (s.toList.map Char.toLower).asString

/-- Splits on a separator character keeping empty segments, like Rust
`str::split`. -/
def splitChar (c : Char) : List Char → List (List Char)
  | [] => [[]]
  | x :: xs =>
    if x = c then [] :: splitChar c xs
    else match splitChar c xs with
      | [] => [[x]]
      | seg :: rest => (x :: seg) :: rest

structure Asset where
  name : Option String
  url : Option String
deriving DecidableEq, Repr

/-- The ordered OS-target token list built by `find_best_asset_match`. -/
def osTargetsFor (gnuPreferred : Bool) (name os : String) :
    Except String (List String) :=
  match os with
  | "linux" =>
    let defaultTargets :=
      if gnuPreferred then ["unknown-linux-gnu", "unknown-linux-musl"]
      else ["unknown-linux-musl", "unknown-linux-gnu"]
    .ok (match name with
      | "fish" | "helix" => ["linux"]
      | _ => defaultTargets)
  | "android" =>
    .ok (match name with
      | "fish" | "helix" => ["linux"]
      | _ => ["unknown-linux-musl", "unknown-linux-gnu"])
  | "macos" => .ok ["apple-darwin"]
  | "windows" => .ok ["pc-windows-msvc"]
  | _ => .error ("Unsupported OS: " ++ os)

/-- The archive extension chosen per OS with per-tool overrides. -/
def extFor (name os : String) : String :=
  if os == "windows" then "zip"
  else if name == "helix" && os == "linux" then "tar.xz"
  else if name == "helix" && os == "macos" then "zip"
  else if name == "fish" then "tar.xz"
  else "tar.gz"

/-- One asset's test: the lowercased asset file name must contain every
fragment (lowercased) as a substring. -/
def assetMatches (frags : List String) (a : Asset) : Bool :=
  let assetName := a.name.getD ""
  let lowerName := toLowerString assetName
  frags.all (fun frag => containsSubstr lowerName (toLowerString frag))

/-- Inner `for asset in assets` loop: first asset matching all fragments
whose `browser_download_url` is a string wins. -/
def findFirstMatch (frags : List String) : List Asset → Option (String × String)
  | [] => none
  | a :: rest =>
    if assetMatches frags a then
      match a.url with
      | some url => some (url, a.name.getD "")
      | none => findFirstMatch frags rest
    else findFirstMatch frags rest

/-- Outer `for os_target in &os_targets` loop. -/
def searchTargets (name arch ext : String) (assets : List Asset) :
    List String → Option (String × String)
  | [] => none
  | t :: ts =>
    let nameToMatch :=
      if name.toList.contains '/' then
        ((splitChar '/' name.toList).getLastD name.toList).asString
      else name
    let frags := [nameToMatch, arch, t, ext]
    match findFirstMatch frags assets with
    | some r => some r
    | none => searchTargets name arch ext assets ts

/-- Embedding of `find_best_asset_match` with the glibc-probe outcome made explicit. -/
def findBestAssetMatch (gnuPreferred : Bool) (name : String)
    (assets : List Asset) (os arch : String) :
    Except String (String × String) :=
  match osTargetsFor gnuPreferred name os with
  | .error e => .error e
  | .ok targets =>
    match searchTargets name arch (extFor name os) assets targets with
    | some r => .ok r
    | none =>
      .error ("Could not find a matching release asset for " ++ name
        ++ " on " ++ os ++ " " ++ arch)

/-! ## Release resolution with retry

Embedding of `find_release_asset` (`src/provision/mod.rs`,
lines 454–493; the same retry structure appears in
`find_github_release_asset_url`, `src/provision.rs` lines 760–879).

`tokio_retry::Retry::spawn` with strategy
`ExponentialBackoff::from_millis(500).map(jitter).take(3)` runs the
closure once and, on `Err`, retries once per remaining strategy
element: 3 retries, hence at most 4 executions of the closure.  The
closure performs the network fetch *and* the asset match.  The network
is modelled as an oracle giving, per attempt index, either an error or
the parsed `assets` array; the attempt count in the result exposes how
often the closure (fetch + match) ran. -/

/-- The bounded retry loop of `tokio_retry::Retry::spawn`: `remaining`
retries left, `k` attempts already made.  Returns the final result and
the total number of times the operation ran. -/
def retryLoop {A : Type} (op : Nat → Except String A) :
    Nat → Nat → Except String A × Nat
  | remaining, k =>
    match op k with
    | .ok a => (.ok a, k + 1)
    | .error e =>
      match remaining with
      | 0 => (.error e, k + 1)
      | r + 1 => retryLoop op r (k + 1)

/-- Embedding of `find_release_asset`: each attempt fetches the release JSON (the
oracle `fetch`) and, on success, runs the matcher on the fetched
assets; any `Err` — network or match — is retried while attempts
remain. -/
def findReleaseAsset (gnuPreferred : Bool) (name : String)
    (fetch : Nat → Except String (List Asset)) (os arch : String) :
    Except String (String × String) × Nat :=
  retryLoop
    (fun k =>
      match fetch k with
      | .error e => .error e
      | .ok assets => findBestAssetMatch gnuPreferred name assets os arch)
    3 0

/-! ## Archive codec: path transformations

Full-tree extraction (claim C4).

`extract_full_archive` (`src/provision/mod.rs` lines 728–774) computes,
per entry, the path joined below the target directory.  For the two tar
flavours it delegates to `unpack_tar_archive` (lines 698–724), which
guards the strip with a component count; the zip branch (lines
750–752) strips without that guard.  Entry paths are modelled as their
non-empty normal components. -/

/-- The stripped path of one tar entry: the first component is removed
only when the path has more than one component
(`if path.components().count() > 1 { strip_prefix(first) } else { path }`). -/
def tarStrippedPath (path : List String) : List String :=
  if path.length > 1 then path.drop 1 else path

/-- The output location of one tar entry: `target_dir.join(stripped)`. -/
def tarOutPath (targetDir path : List String) : List String :=
  targetDir ++ tarStrippedPath path

/-- The stripped path of one zip entry in `extract_full_archive`: the
first component is stripped unconditionally —
`enclosed_name.strip_prefix(enclosed_name.components().next().unwrap())`
succeeds on every non-empty path, also a single-component one (leaving
the empty path), so the `unwrap_or(&enclosed_name)` fallback never
fires. -/
def zipStrippedPath (path : List String) : List String :=
  path.drop 1

/-- The output location of one zip entry: `target_dir.join(stripped)`. -/
def zipOutPath (targetDir path : List String) : List String :=
  targetDir ++ zipStrippedPath path

/-! Sub-tree extraction (claim C3).

`unpack_tar_sub_directory` (`src/provision/mod.rs` lines 994–1020,
driven by `extract_sub_directory` which builds the pattern
`format!("/{}/", sub_dir_name)`).  Entry paths are the strings produced
by `entry.path()?.to_str()`. -/

/-- For one entry path, the relative output path under the target
directory, or `none` when the entry is skipped: the first occurrence of
`"/" ++ subDirName ++ "/"` is located with `str::find`; if present, the
output is the entry path from one character past that slash
(`&path[sub_dir_index + 1..]`). -/
def subDirOutPath (subDirName path : String) : Option String :=
  let pattern := "/" ++ subDirName ++ "/"
  (firstOccurIdx pattern.toList path.toList).map
    (fun i => ((path.toList).drop (i + 1)).asString)

/-! ## Downloader (claim C10)

Embedding of `download_to_temp_file` and `DownloadManager`
(`src/provision/mod.rs` lines 227–298).  One network attempt is: the
HTTP response (ok, or a send/status error) followed by a stream of
chunk results.  Each attempt first resets the progress bar
(`pb.set_position(0)`), then creates a *fresh* `NamedTempFile` inside a
new `DownloadManager`, then writes every chunk to that file while
incrementing the bar.  The temp file is the list of bytes written, the
bar position a `Nat`. -/

structure DownloadAttempt where
  /-- Outcome of `client.get(url).send().await?.error_for_status()?`. -/
  response : Except String Unit
  /-- successive results of `stream.next()`: chunk bytes or a read error. -/
  chunks : List (Except String (List Nat))

/-- The `while let Some(item) = stream.next()` loop through
`DownloadManager::write_chunk`: appends each chunk to the temp file and
advances the progress bar; the first errored chunk aborts.  Returns the
outcome together with the bar position reached. -/
def writeChunks (tempFile : List Nat) (pos : Nat) :
    List (Except String (List Nat)) → Except String (List Nat) × Nat
  | [] => (.ok tempFile, pos)
  | .error e :: _ =>
    (.error ("Failed to read download chunk: " ++ e), pos)
  | .ok chunk :: rest =>
    writeChunks (tempFile ++ chunk) (pos + chunk.length) rest

/-- One closure body of the retry: reset the bar to zero, check the
response, create the fresh (empty) temp file, stream the chunks. -/
def runDownloadAttempt (a : DownloadAttempt) :
    Except String (List Nat) × Nat :=
  match a.response with
  | .error e => (.error e, 0)
  | .ok () => writeChunks [] 0 a.chunks

/-- Embedding of `download_to_temp_file`: the attempt closure under the same
`take(3)` retry strategy as the resolver.  Result: the final outcome
(the returned temp file's bytes on success), the final progress-bar
position, and the number of attempts performed. -/
def downloadToTempFile (attempts : Nat → DownloadAttempt) :
    Except String (List Nat) × Nat × Nat :=
  go 3 0
where
  go : Nat → Nat → Except String (List Nat) × Nat × Nat
    | remaining, k =>
      match runDownloadAttempt (attempts k) with
      | (.ok f, pos) => (.ok f, pos, k + 1)
      | (.error e, pos) =>
        match remaining with
        | 0 => (.error e, pos, k + 1)
        | r + 1 => go r (k + 1)

/-! ## Symlink builder (claim C9)

Embedding of `create_symlink` (`src/provision/mod.rs` lines 777–785 on
unix; the identical computation is in `src/provision.rs` lines
1006–1014) and of `pathdiff::diff_paths`, the crate function it calls.

A Rust `Path` is modelled as an absolute flag plus the list of its
normalized components (`Component::Normal`, `ParentDir`, `CurDir`). -/

inductive Comp where
  | normal (s : String)
  | parent
  | cur
deriving DecidableEq, Repr

structure RustPath where
  absolute : Bool
  comps : List Comp
deriving DecidableEq, Repr

/-- Rust `Path::parent()` followed by `unwrap_or(Path::new(""))`: drop the
last component; the parent of a root or single-component relative path
degenerates per Rust semantics. -/
def pathParent (p : RustPath) : RustPath :=
  if p.comps.isEmpty then ⟨false, []⟩
  else ⟨p.absolute, p.comps.dropLast⟩

/-- The component loop of `pathdiff::diff_paths`, with `acc` the `comps`
vector built so far.  Mirrors the `match (ita.next(), itb.next())` arms,
including the `comps.is_empty()` guard that limits component-skipping to
the common prefix. -/
def diffGo (acc : List Comp) : List Comp → List Comp → Option (List Comp)
  | [], [] => some acc
  | a :: as_, [] => some (acc ++ a :: as_)
  | [], _ :: bs => diffGo (acc ++ [.parent]) [] bs
  | a :: as_, b :: bs =>
    if acc.isEmpty && a = b then diffGo [] as_ bs
    else if b = .cur then diffGo (acc ++ [a]) as_ bs
    else if b = .parent then none
    else some (acc ++ .parent :: List.replicate bs.length .parent ++ a :: as_)

/-- Embedding of `pathdiff::diff_paths(path, base)`. -/
def diffPaths (path base : RustPath) : Option (List Comp) :=
  if path.absolute != base.absolute then
    if path.absolute then some path.comps else none
  else
    diffGo [] path.comps base.comps

/-- Embedding of `create_symlink(original, link)`: compute the relative path from
the link's parent, then issue the OS symlink call (its success is the
ambient input `osOk`).  On success the value is the stored on-disk link
target. -/
def create_symlink (osOk : Bool) (original link : RustPath) :
    Except String (List Comp) :=
  match diffPaths original (pathParent link) with
  | none => .error "Failed to calculate relative path for symlink"
  | some relativePath =>
    if osOk then .ok relativePath else .error "Failed to create symlink"

/-- Resolution of a relative component list against an absolute
directory (given by its normal components, root-to-leaf): `..` pops,
`.` is skipped, a normal component descends.  `none` when resolution
would escape the root.  This is the canonicalization a symlink whose
stored target is relative undergoes. -/
def applyRel (dir : List String) : List Comp → Option (List String)
  | [] => some dir
  | .normal s :: rest => applyRel (dir ++ [s]) rest
  | .cur :: rest => applyRel dir rest
  | .parent :: rest =>
    if dir.isEmpty then none else applyRel dir.dropLast rest

/-! ## Tool provisioner (claims C7, C8)

Embedding of `provision_tool` (`src/provision/mod.rs` lines 104–168).
The three-tier policy runs in order: (1) `bin/<name>` already exists in
the environment; (2) `which::which` finds the binary on the system
search path — create the relative symlink, then run the tool's
`post_symlink_hook`; (3) fall back to `provision_from_source`.

Ambient inputs become parameters: whether `tool_path_in_env.exists()`,
the `which` result, the OS symlink call outcome, and the outcomes of
the hook and of the remote install.  The returned trace records every
environment-modifying / network-reaching step the function took;
progress-bar and log calls are pure UI and are not traced. -/

inductive Effect where
  /-- Step `create_symlink(&system_path, &tool_path_in_env)` succeeded,
  storing `rel` as the link target. -/
  | symlinkCreated (systemPath : RustPath) (rel : List Comp)
  /-- Step `tool.post_symlink_hook(...)` was invoked. -/
  | hookRan
  /-- Step `tool.provision_from_source(...)` was invoked. -/
  | remoteInstall
deriving DecidableEq, Repr

/-- The path `env_dir.join("bin").join(binary_name)`. -/
def toolPathInEnv (envDir : RustPath) (binaryName : String) : RustPath :=
  ⟨envDir.absolute, envDir.comps ++ [.normal "bin", .normal binaryName]⟩

/-- Embedding of `provision_tool`, with its result paired with the trace of effects. -/
def provision_tool (envDir : RustPath) (binaryName : String)
    (binExists : Bool) (whichResult : Option RustPath) (osOk : Bool)
    (hookOutcome remoteOutcome : Except String Unit) :
    Except String Unit × List Effect :=
  let toolPath := toolPathInEnv envDir binaryName
  if binExists then (.ok (), [])
  else
    match whichResult with
    | some systemPath =>
      match create_symlink osOk systemPath toolPath with
      | .error e => (.error e, [])
      | .ok rel =>
        match hookOutcome with
        | .error e => (.error e, [.symlinkCreated systemPath rel, .hookRan])
        | .ok () => (.ok (), [.symlinkCreated systemPath rel, .hookRan])
    | none =>
      match remoteOutcome with
      | .error e => (.error e, [.remoteInstall])
      | .ok () => (.ok (), [.remoteInstall])

/-! ## Orchestrator (claim C1)

Embedding of `run_inner` and `setup_environment` (`src/main.rs`,
lines 55–170 and 175–241).

`anyhow` errors are modelled as the original message plus the stack of
`context(..)` layers wrapped around it, so "surfacing the original
error" is statable.  The filesystem is reduced to the one fact the
claim is about: whether the environment root exists.  Each tool task's
outcome is an input (the tasks run to completion under
`try_join_all`; a task's `Err` is wrapped with the
`"Failed to provision tool: '<name>'"` context inside the task and
with `"A provisioning task returned an error"` by the collection
loop).  `fs::remove_dir_all` can itself fail; its outcome is the
ambient input `removeOk`. -/

structure AppError where
  ctx : List String
  orig : String
deriving DecidableEq, Repr

/-- Rust `anyhow::Context::context`: wrap one more layer. -/
def addContext (c : String) (e : AppError) : AppError :=
  ⟨c :: e.ctx, e.orig⟩

/-- The error a failing tool task yields after its in-task context. -/
def toolTaskError (name : String) (e : AppError) : AppError :=
  addContext ("Failed to provision tool: '" ++ name ++ "'") e

/-- The `for result in results` loop: the first `Err`, in task order,
aborts `setup_environment`. -/
def firstFailure : List (String × Except AppError Unit) →
    Option (String × AppError)
  | [] => none
  | (name, .error e) :: _ => some (name, e)
  | (_, .ok ()) :: rest => firstFailure rest

/-- Embedding of `setup_environment`: create the skeleton (the root now exists),
await every tool, fail on the first tool error, then run
`generate_configs`. -/
def setup_environment (tools : List (String × Except AppError Unit))
    (configOutcome : Except AppError Unit) :
    Bool × Except AppError Unit :=
  -- create_dir_all for bin/, config/, data/: the environment root exists.
  match firstFailure tools with
  | some (name, e) =>
    (true, .error (addContext "A provisioning task returned an error"
      (toolTaskError name e)))
  | none =>
    match configOutcome with
    | .error e =>
      (true, .error (addContext "Failed to generate configuration files" e))
    | .ok () => (true, .ok ())

/-- Embedding of `run_inner`'s transactional block: on any `setup_environment`
error, delete the environment directory and re-raise the original
error; if the deletion itself fails, that failure (with its own
context) replaces the outcome.  Returns whether the environment root
exists after the run, and the run's result. -/
def run_inner (tools : List (String × Except AppError Unit))
    (configOutcome : Except AppError Unit) (removeOk : Bool) :
    Bool × Except AppError Unit :=
  match setup_environment tools configOutcome with
  | (envExists, .ok ()) => (envExists, .ok ())
  | (envExists, .error e) =>
    if removeOk then (false, .error e)
    else (envExists, .error
      ⟨["Failed to clean up environment directory during error recovery"],
        "remove_dir_all failed"⟩)

/-! ## Claim theorems -/

/-- C5: on the asset list
`["decoy-x86_64-unknown-linux-musl.tar.gz",
  "tool-14.1.0-x86_64-unknown-linux-musl.tar.gz"]`
with OS `linux`, arch `x86_64` and tool base name `tool`, the matcher
selects the second asset — never the decoy — under both the gnu-first
and the musl-first token ordering. -/
theorem find_best_asset_match_ignores_decoy (gnuPreferred : Bool) :
    findBestAssetMatch gnuPreferred "tool"
      [⟨some "decoy-x86_64-unknown-linux-musl.tar.gz",
          some "https://example.com/decoy.tar.gz"⟩,
       ⟨some "tool-14.1.0-x86_64-unknown-linux-musl.tar.gz",
          some "https://example.com/tool.tar.gz"⟩]
      "linux" "x86_64"
    = .ok ("https://example.com/tool.tar.gz",
        "tool-14.1.0-x86_64-unknown-linux-musl.tar.gz") := by
  cases gnuPreferred <;> rfl

/-- C6 counterexample: two runs of the matcher on the same
(assets, OS, arch, tool name) but with the two possible glibc-probe
outcomes select two different assets, so selection is not a function of
(assets, OS, arch, name) alone. -/
theorem find_best_asset_match_probe_dependent :
    findBestAssetMatch true "tool"
      [⟨some "tool-1.0-x86_64-unknown-linux-gnu.tar.gz",
          some "https://example.com/gnu.tar.gz"⟩,
       ⟨some "tool-1.0-x86_64-unknown-linux-musl.tar.gz",
          some "https://example.com/musl.tar.gz"⟩]
      "linux" "x86_64"
    = .ok ("https://example.com/gnu.tar.gz",
        "tool-1.0-x86_64-unknown-linux-gnu.tar.gz")
  ∧ findBestAssetMatch false "tool"
      [⟨some "tool-1.0-x86_64-unknown-linux-gnu.tar.gz",
          some "https://example.com/gnu.tar.gz"⟩,
       ⟨some "tool-1.0-x86_64-unknown-linux-musl.tar.gz",
          some "https://example.com/musl.tar.gz"⟩]
      "linux" "x86_64"
    = .ok ("https://example.com/musl.tar.gz",
        "tool-1.0-x86_64-unknown-linux-musl.tar.gz")
  ∧ (("https://example.com/gnu.tar.gz",
        "tool-1.0-x86_64-unknown-linux-gnu.tar.gz")
      ≠ (("https://example.com/musl.tar.gz",
        "tool-1.0-x86_64-unknown-linux-musl.tar.gz") : String × String)) := by
  refine ⟨rfl, rfl, by decide⟩

theorem osTargetsFor_independent_of_probe {os : String}
    (hos : os ≠ "linux") (g₁ g₂ : Bool) (name : String) :
    osTargetsFor g₁ name os = osTargetsFor g₂ name os := by
  unfold osTargetsFor
  split
  · exact absurd rfl hos
  all_goals rfl

/-- C6 amended: asset matching is deterministic once the glibc-probe
outcome is fixed — runs agreeing on (assets, OS, arch, tool name) and,
when the OS is linux, on the probe outcome, select the same asset or
both fail.  On every other OS the probe outcome is irrelevant. -/
theorem find_best_asset_match_deterministic (g₁ g₂ : Bool)
    (name : String) (assets : List Asset) (os arch : String)
    (h : os = "linux" → g₁ = g₂) :
    findBestAssetMatch g₁ name assets os arch
    = findBestAssetMatch g₂ name assets os arch := by
  by_cases hos : os = "linux"
  · rw [h hos]
  · unfold findBestAssetMatch
    rw [osTargetsFor_independent_of_probe hos g₁ g₂ name]

/-- C6 amended, witness: a macos run is independent of the probe. -/
theorem find_best_asset_match_deterministic_witness :
    findBestAssetMatch true "tool"
      [⟨some "tool-1.0-x86_64-apple-darwin.tar.gz", some "u"⟩]
      "macos" "x86_64"
    = findBestAssetMatch false "tool"
      [⟨some "tool-1.0-x86_64-apple-darwin.tar.gz", some "u"⟩]
      "macos" "x86_64" :=
  find_best_asset_match_deterministic true false "tool"
    [⟨some "tool-1.0-x86_64-apple-darwin.tar.gz", some "u"⟩]
    "macos" "x86_64" (by intro h; exact absurd h (by decide))

/-- C7: when `bin/<name>` already exists in the environment,
`provision_tool` succeeds immediately with an empty effect trace — no
symlink created, no hook run, no remote install (hence no network call
and no modification of the environment tree). -/
theorem provision_tool_already_present (envDir : RustPath)
    (binaryName : String) (binExists : Bool)
    (whichResult : Option RustPath) (osOk : Bool)
    (hookOutcome remoteOutcome : Except String Unit)
    (h : binExists = true) :
    provision_tool envDir binaryName binExists whichResult osOk
      hookOutcome remoteOutcome = (.ok (), []) := by
  subst h
  rfl

/-- C7 witness. -/
theorem provision_tool_already_present_witness :
    provision_tool ⟨true, [.normal "env"]⟩ "rg" true
      (some ⟨true, [.normal "usr", .normal "bin", .normal "rg"]⟩) true
      (.ok ()) (.ok ()) = (.ok (), []) :=
  provision_tool_already_present _ _ _ _ _ _ _ rfl

/-- C8: once a system binary is found, `provision_tool` commits to the
SYSTEM_LINK path: if the symlink creation or the post-symlink hook
fails, the tool's provisioning fails with that original error, and
`provision_from_source` (remote installation) never appears in the
effect trace. -/
theorem provision_tool_system_link_commits (envDir : RustPath)
    (binaryName : String) (systemPath : RustPath) (osOk : Bool)
    (hookOutcome remoteOutcome : Except String Unit)
    (hfail :
      (create_symlink osOk systemPath
        (toolPathInEnv envDir binaryName)).isOk = false
      ∨ hookOutcome.isOk = false) :
    (∃ e, (provision_tool envDir binaryName false (some systemPath) osOk
        hookOutcome remoteOutcome).1 = .error e
      ∧ (create_symlink osOk systemPath
          (toolPathInEnv envDir binaryName) = .error e
        ∨ hookOutcome = .error e))
  ∧ Effect.remoteInstall ∉ (provision_tool envDir binaryName false
      (some systemPath) osOk hookOutcome remoteOutcome).2 := by
  cases hsym : create_symlink osOk systemPath
      (toolPathInEnv envDir binaryName) with
  | error e =>
    refine ⟨⟨e, ?_, Or.inl rfl⟩, ?_⟩ <;>
      simp [provision_tool, hsym]
  | ok rel =>
    cases hhook : hookOutcome with
    | error e =>
      refine ⟨⟨e, ?_, Or.inr rfl⟩, ?_⟩ <;>
        simp [provision_tool, hsym, hhook]
    | ok u =>
      exfalso
      rw [hsym, hhook] at hfail
      simp [Except.isOk, Except.toBool] at hfail

/-- C8 witness: the OS symlink call failing on a discovered system
tool fails the tool without reaching remote installation. -/
theorem provision_tool_system_link_commits_witness :
    (∃ e, (provision_tool ⟨true, [.normal "env"]⟩ "rg" false
        (some ⟨true, [.normal "usr", .normal "bin", .normal "rg"]⟩) false
        (.ok ()) (.ok ())).1 = .error e
      ∧ (create_symlink false ⟨true, [.normal "usr", .normal "bin", .normal "rg"]⟩
          (toolPathInEnv ⟨true, [.normal "env"]⟩ "rg") = .error e
        ∨ (Except.ok () : Except String Unit) = .error e))
  ∧ Effect.remoteInstall ∉ (provision_tool ⟨true, [.normal "env"]⟩ "rg" false
      (some ⟨true, [.normal "usr", .normal "bin", .normal "rg"]⟩) false
      (.ok ()) (.ok ())).2 :=
  provision_tool_system_link_commits ⟨true, [.normal "env"]⟩ "rg"
    ⟨true, [.normal "usr", .normal "bin", .normal "rg"]⟩ false
    (.ok ()) (.ok ()) (Or.inl (by rfl))

/-- C1: if any declared tool's provisioning fails (and the recovery
deletion succeeds), the run deletes the environment root — it does not
exist afterwards — and surfaces an error whose original cause is the
first failing tool's error. -/
theorem run_inner_rolls_back (tools : List (String × Except AppError Unit))
    (configOutcome : Except AppError Unit) (name : String) (e₀ : AppError)
    (h : firstFailure tools = some (name, e₀)) :
    (run_inner tools configOutcome true).1 = false
  ∧ ∃ e, (run_inner tools configOutcome true).2 = .error e
      ∧ e.orig = e₀.orig := by
  unfold run_inner setup_environment
  rw [h]
  exact ⟨rfl, _, rfl, rfl⟩

/-- C1 witness: a run with one failing tool ends with no environment
root and the original error surfaced. -/
theorem run_inner_rolls_back_witness :
    (run_inner [("fish", .ok ()), ("rg", .error ⟨[], "boom"⟩)]
      (.ok ()) true).1 = false
  ∧ ∃ e, (run_inner [("fish", .ok ()), ("rg", .error ⟨[], "boom"⟩)]
      (.ok ()) true).2 = .error e ∧ e.orig = (⟨[], "boom"⟩ : AppError).orig :=
  run_inner_rolls_back [("fish", .ok ()), ("rg", .error ⟨[], "boom"⟩)]
    (.ok ()) "rg" ⟨[], "boom"⟩ rfl

/-- C4 counterexample: a tar entry whose path has a single component is
unpacked with its path unchanged — no leading component is stripped —
contradicting "exactly one leading path component is stripped from
every entry (including entries whose path has a single component)". -/
theorem tar_strip_single_component_counterexample :
    tarStrippedPath ["hx"] = ["hx"]
  ∧ tarStrippedPath ["hx"] ≠ List.drop 1 ["hx"]
  ∧ tarOutPath ["env", "helix"] ["hx"] = ["env", "helix", "hx"] := by
  refine ⟨rfl, by decide, rfl⟩

/-- C4 amended: full-tree extraction strips exactly one leading path
component from every zip entry — unconditionally, including entries
whose path has a single component — and from every tar entry whose
path has more than one component; a single-component tar entry alone is
joined to the target directory unchanged. -/
theorem full_tree_strip_exactly_one (targetDir path : List String) :
    zipOutPath targetDir path = targetDir ++ path.drop 1
  ∧ (1 < path.length → tarOutPath targetDir path = targetDir ++ path.drop 1)
  ∧ (path.length ≤ 1 → tarOutPath targetDir path = targetDir ++ path) := by
  refine ⟨rfl, ?_, ?_⟩
  · intro h
    unfold tarOutPath tarStrippedPath
    rw [if_pos h]
  · intro h
    unfold tarOutPath tarStrippedPath
    rw [if_neg (by omega)]

/-- C4 amended, witness: a multi-component tar entry and a
single-component zip entry are both stripped; a single-component tar
entry is not. -/
theorem full_tree_strip_exactly_one_witness :
    zipOutPath ["env", "helix"] ["hx"] = ["env", "helix"] ++ ["hx"].drop 1
  ∧ tarOutPath ["env", "helix"] ["helix-24.03", "runtime", "themes"]
    = ["env", "helix"] ++ ["helix-24.03", "runtime", "themes"].drop 1
  ∧ tarOutPath ["env", "helix"] ["hx"] = ["env", "helix"] ++ ["hx"] :=
  ⟨(full_tree_strip_exactly_one ["env", "helix"] ["hx"]).1,
   (full_tree_strip_exactly_one ["env", "helix"]
     ["helix-24.03", "runtime", "themes"]).2.1 (by decide),
   (full_tree_strip_exactly_one ["env", "helix"] ["hx"]).2.2 (by decide)⟩

theorem retryLoop_const_error {A : Type} (op : Nat → Except String A)
    (e : String) (h : ∀ k, op k = .error e) :
    ∀ r k, retryLoop op r k = (.error e, k + r + 1) := by
  intro r
  induction r with
  | zero =>
    intro k
    unfold retryLoop
    rw [h k]
  | succ n ih =>
    intro k
    unfold retryLoop
    rw [h k]
    show retryLoop op n (k + 1) = (Except.error e, k + (n + 1) + 1)
    rw [ih (k + 1)]
    refine Prod.ext rfl ?_
    simp only []
    omega

/-- C2 counterexample: with the network healthy on every attempt and a
release whose asset list matches nothing, the resolver runs its closure
— fetch *and* matcher — four times before failing, not once: the
deterministic match failure is retried. -/
theorem find_release_asset_match_failure_retried :
    (findReleaseAsset true "tool"
      (fun _ => .ok [⟨some "decoy.deb", some "https://example.com/decoy.deb"⟩])
      "linux" "x86_64").2 = 4
  ∧ (findReleaseAsset true "tool"
      (fun _ => .ok [⟨some "decoy.deb", some "https://example.com/decoy.deb"⟩])
      "linux" "x86_64").2 ≠ 1
  ∧ (findReleaseAsset true "tool"
      (fun _ => .ok [⟨some "decoy.deb", some "https://example.com/decoy.deb"⟩])
      "linux" "x86_64").1
    = .error "Could not find a matching release asset for tool on linux x86_64" := by
  refine ⟨rfl, by decide, rfl⟩

/-- C2 amended: a match failure on successfully fetched data is retried
exactly like a network failure — the whole fetch-and-match closure is
re-run on every retry, and with the fetch succeeding identically each
time, the resolver runs the closure the full 4 bounded attempts (1
initial + 3 retries) and then fails with the match error. -/
theorem find_release_asset_retries_match_failure (gnuPreferred : Bool)
    (name os arch : String) (assets : List Asset)
    (fetch : Nat → Except String (List Asset)) (e : String)
    (hfetch : ∀ k, fetch k = .ok assets)
    (hmatch : findBestAssetMatch gnuPreferred name assets os arch = .error e) :
    findReleaseAsset gnuPreferred name fetch os arch = (.error e, 4) := by
  unfold findReleaseAsset
  rw [retryLoop_const_error _ e]
  intro k
  rw [hfetch k]
  exact hmatch

/-- C2 amended, witness. -/
theorem find_release_asset_retries_match_failure_witness :
    findReleaseAsset false "tool"
      (fun _ => .ok [⟨some "tool-1.0-src.rpm", some "https://example.com/t.rpm"⟩])
      "linux" "aarch64"
    = (.error "Could not find a matching release asset for tool on linux aarch64", 4) :=
  find_release_asset_retries_match_failure false "tool" "linux" "aarch64"
    [⟨some "tool-1.0-src.rpm", some "https://example.com/t.rpm"⟩]
    (fun _ => .ok [⟨some "tool-1.0-src.rpm", some "https://example.com/t.rpm"⟩])
    "Could not find a matching release asset for tool on linux aarch64"
    (fun _ => rfl) rfl

/-- C3 counterexample: sub-tree extraction includes an entry only when
its path contains `"/<segment>/"`, not merely the segment — the path
`"runtime/themes/x.toml"` contains the segment `runtime` yet is
skipped — and for an included entry the output path *keeps* the
segment: `"helix-24.03/runtime/themes/x.toml"` is written to
`runtime/themes/x.toml` under the target, not to `themes/x.toml`. -/
theorem sub_dir_extraction_counterexample :
    containsSubstr "runtime/themes/x.toml" "runtime" = true
  ∧ subDirOutPath "runtime" "runtime/themes/x.toml" = none
  ∧ subDirOutPath "runtime" "helix-24.03/runtime/themes/x.toml"
      = some "runtime/themes/x.toml"
  ∧ "runtime/themes/x.toml" ≠ "themes/x.toml" := by
  refine ⟨rfl, rfl, rfl, by decide⟩

/-- C3 amended: an archive entry is included in sub-tree extraction iff
its path contains `"/" ++ segment ++ "/"`; the output path under the
target directory is the suffix of the entry path starting at the
segment itself — everything before the segment is excluded, but the
segment is kept, so the output begins with `segment ++ "/"`. -/
theorem sub_dir_extraction_keeps_segment (seg path : String) :
    ((subDirOutPath seg path).isSome
      ↔ ("/" ++ seg ++ "/").toList <:+: path.toList)
  ∧ ∀ out, subDirOutPath seg path = some out →
      (seg ++ "/").toList.isPrefixOf out.toList
      ∧ out.toList <:+ path.toList := by
  constructor
  · unfold subDirOutPath
    rw [Option.isSome_map']
    exact firstOccurIdx_isSome_iff
  · intro out hout
    unfold subDirOutPath at hout
    obtain ⟨i, hi, rfl⟩ := Option.map_eq_some'.mp hout
    constructor
    · have hpre := firstOccurIdx_sound hi
      rw [ List.isPrefixOf_iff_prefix] at hpre ⊢
      rw [List.toList_asString]
      have hsplit : ("/" ++ seg ++ "/").toList
          = '/' :: (seg ++ "/").toList := rfl
      rw [hsplit] at hpre
      obtain ⟨r, hr⟩ := hpre
      refine ⟨r, ?_⟩
      have hdrop : path.toList.drop (i + 1)
          = List.drop 1 (path.toList.drop i) := by
        rw [List.drop_drop, Nat.add_comm]
      rw [hdrop, ← hr]
      simp
    · rw [List.toList_asString]
      exact List.drop_suffix _ _

/-- C3 amended, witness: the fish `share` extraction keeps the `share`
segment in the output path. -/
theorem sub_dir_extraction_keeps_segment_witness :
    ("share" ++ "/").toList.isPrefixOf
      "share/completions/git.fish".toList
    ∧ "share/completions/git.fish".toList
      <:+ "fish-3.7.1/share/completions/git.fish".toList :=
  (sub_dir_extraction_keeps_segment "share"
    "fish-3.7.1/share/completions/git.fish").2
    "share/completions/git.fish" rfl

theorem diffGo_all_parents (l : List Comp) :
    ∀ acc, diffGo acc [] l = some (acc ++ List.replicate l.length .parent) := by
  induction l with
  | nil => intro acc; simp [diffGo]
  | cons x xs ih =>
    intro acc
    show diffGo (acc ++ [Comp.parent]) [] xs = _
    rw [ih]
    simp [List.replicate_succ]

/-- Shape of `diff_paths` on two normal-component lists: some `..`
steps followed by the suffix of the path past the common prefix. -/
theorem diffGo_normal_shape (b p : List String) :
    ∃ k s, diffGo [] (p.map .normal) (b.map .normal)
        = some (List.replicate k .parent ++ s.map .normal)
      ∧ k ≤ b.length ∧ b.take (b.length - k) ++ s = p := by
  induction b generalizing p with
  | nil =>
    refine ⟨0, p, ?_, by simp, by simp⟩
    cases p <;> simp [diffGo]
  | cons c bs ih =>
    cases p with
    | nil =>
      refine ⟨bs.length + 1, [], ?_, by simp, by simp⟩
      show diffGo [] [] (.normal c :: bs.map .normal) = _
      rw [diffGo_all_parents]
      simp [List.replicate_succ]
    | cons a as_ =>
      by_cases hac : a = c
      · obtain ⟨k, s, hgo, hk, hsplit⟩ := ih as_
        refine ⟨k, s, ?_, by rw [List.length_cons]; omega, ?_⟩
        · show diffGo [] (.normal a :: as_.map .normal)
            (.normal c :: bs.map .normal) = _
          rw [diffGo]
          rw [if_pos (by simp [hac])]
          exact hgo
        · have h1 : (c :: bs).length - k = (bs.length - k) + 1 := by
            rw [List.length_cons]; omega
          rw [h1, List.take_succ_cons, ← hac]
          simpa using hsplit
      · refine ⟨bs.length + 1, a :: as_, ?_, by simp, by simp⟩
        show diffGo [] (.normal a :: as_.map .normal)
          (.normal c :: bs.map .normal) = _
        rw [diffGo]
        rw [if_neg (by simp [hac]), if_neg (by simp), if_neg (by simp)]
        simp [List.replicate_succ]

theorem applyRel_parents (k : Nat) :
    ∀ (d : List String), k ≤ d.length → ∀ rest,
      applyRel d (List.replicate k .parent ++ rest)
      = applyRel (d.take (d.length - k)) rest := by
  induction k with
  | zero =>
    intro d _ rest
    simp [List.take_length]
  | succ n ih =>
    intro d hk rest
    have hd : ¬d.isEmpty := by
      cases d
      · simp at hk
      · simp
    rw [List.replicate_succ, List.cons_append]
    show applyRel d (.parent :: (List.replicate n .parent ++ rest)) = _
    rw [applyRel, if_neg (by simp [hd])]
    have hlen : n ≤ d.dropLast.length := by
      rw [List.length_dropLast]; omega
    rw [ih d.dropLast hlen rest]
    have htake : d.dropLast.take (d.dropLast.length - n)
        = d.take (d.length - (n + 1)) := by
      rw [List.dropLast_eq_take, List.length_take, List.take_take]
      congr 1
      omega
    rw [htake]

theorem applyRel_normals (s : List String) :
    ∀ d : List String, applyRel d (s.map .normal) = some (d ++ s) := by
  induction s with
  | nil => intro d; simp [applyRel]
  | cons x xs ih =>
    intro d
    show applyRel (d ++ [x]) (xs.map .normal) = _
    rw [ih (d ++ [x])]
    simp

/-- C9: for absolute `original` and `link` paths made of normal
components, `create_symlink` succeeds when the OS call does, the stored
on-disk target is exactly the relative path `pathdiff::diff_paths`
computes from the link's parent, and resolving that relative target
against the link's parent directory yields `original` again; when no
relative path can be computed, or the OS link call fails,
`create_symlink` returns an error. -/
theorem create_symlink_correct (orig link : List String)
    (hlink : link ≠ []) :
    (∃ rel,
      create_symlink true ⟨true, orig.map .normal⟩ ⟨true, link.map .normal⟩
        = .ok rel
      ∧ diffPaths ⟨true, orig.map .normal⟩
          (pathParent ⟨true, link.map .normal⟩) = some rel
      ∧ applyRel link.dropLast rel = some orig)
  ∧ (∀ o l : RustPath, diffPaths o (pathParent l) = none →
      ∀ osOk, create_symlink osOk o l
        = .error "Failed to calculate relative path for symlink")
  ∧ (∀ (o l : RustPath) (rel : List Comp),
      diffPaths o (pathParent l) = some rel →
      create_symlink false o l = .error "Failed to create symlink") := by
  refine ⟨?_, ?_, ?_⟩
  · have hne : ¬(link.map Comp.normal).isEmpty := by
      cases link
      · exact absurd rfl hlink
      · simp
    have hparent : pathParent ⟨true, link.map .normal⟩
        = ⟨true, link.dropLast.map .normal⟩ := by
      unfold pathParent
      rw [if_neg (by simp [hne])]
      simp [List.map_dropLast]
    obtain ⟨k, s, hgo, hk, hsplit⟩ := diffGo_normal_shape link.dropLast orig
    refine ⟨List.replicate k .parent ++ s.map .normal, ?_, ?_, ?_⟩
    · unfold create_symlink
      rw [hparent]
      unfold diffPaths
      simp only [bne_self_eq_false, Bool.false_eq_true, if_false]
      rw [hgo]
      simp
    · rw [hparent]
      unfold diffPaths
      simp only [bne_self_eq_false, Bool.false_eq_true, if_false]
      exact hgo
    · rw [applyRel_parents k link.dropLast hk (s.map .normal),
        applyRel_normals s (link.dropLast.take (link.dropLast.length - k)),
        hsplit]
  · intro o l hnone osOk
    unfold create_symlink
    rw [hnone]
  · intro o l rel hsome
    unfold create_symlink
    rw [hsome]
    rfl

/-- C9 witness: linking `<env>/bin/rg` to `<env>/tool/rg` stores
`../tool/rg` and resolves back to the original. -/
theorem create_symlink_correct_witness :
    (∃ rel,
      create_symlink true
        ⟨true, ["env", "tool", "rg"].map .normal⟩
        ⟨true, ["env", "bin", "rg"].map .normal⟩ = .ok rel
      ∧ diffPaths ⟨true, ["env", "tool", "rg"].map .normal⟩
          (pathParent ⟨true, ["env", "bin", "rg"].map .normal⟩) = some rel
      ∧ applyRel ["env", "bin", "rg"].dropLast rel
          = some ["env", "tool", "rg"])
  ∧ (∀ o l : RustPath, diffPaths o (pathParent l) = none →
      ∀ osOk, create_symlink osOk o l
        = .error "Failed to calculate relative path for symlink")
  ∧ (∀ (o l : RustPath) (rel : List Comp),
      diffPaths o (pathParent l) = some rel →
      create_symlink false o l = .error "Failed to create symlink") :=
  create_symlink_correct ["env", "tool", "rg"] ["env", "bin", "rg"]
    (by decide)

theorem writeChunks_ok (chunks : List (Except String (List Nat))) :
    ∀ (acc : List Nat) (p : Nat) (f : List Nat) (pos : Nat),
      writeChunks acc p chunks = (.ok f, pos) →
      ∃ payloads : List (List Nat), chunks = payloads.map .ok
        ∧ f = acc ++ payloads.flatten
        ∧ pos = p + payloads.flatten.length := by
  induction chunks with
  | nil =>
    intro acc p f pos h
    unfold writeChunks at h
    simp only [Prod.mk.injEq, Except.ok.injEq] at h
    exact ⟨[], rfl, by simp [h.1.symm], by simp [h.2.symm]⟩
  | cons ch rest ih =>
    intro acc p f pos h
    cases ch with
    | error e =>
      unfold writeChunks at h
      simp at h
    | ok c =>
      unfold writeChunks at h
      obtain ⟨ps, hrest, hf, hpos⟩ := ih (acc ++ c) (p + c.length) f pos h
      refine ⟨c :: ps, by rw [hrest]; rfl, ?_, ?_⟩
      · rw [hf]
        simp
      · rw [hpos]
        simp
        omega

theorem downloadGo_ok (atts : Nat → DownloadAttempt) :
    ∀ (rem k : Nat) (f : List Nat) (pos n : Nat),
      downloadToTempFile.go atts rem k = (.ok f, pos, n) →
      k + 1 ≤ n ∧ n ≤ k + rem + 1
      ∧ (∀ j, k ≤ j → j + 1 < n →
          (runDownloadAttempt (atts j)).1.isOk = false)
      ∧ runDownloadAttempt (atts (n - 1)) = (.ok f, pos) := by
  intro rem
  induction rem with
  | zero =>
    intro k f pos n h
    unfold downloadToTempFile.go at h
    rcases hr : runDownloadAttempt (atts k) with ⟨r, p'⟩
    rw [hr] at h
    cases r with
    | ok f' =>
      simp only [Prod.mk.injEq, Except.ok.injEq] at h
      obtain ⟨rfl, rfl, rfl⟩ := h
      refine ⟨le_refl _, le_refl _, ?_, ?_⟩
      · intro j hkj hj
        omega
      · simpa using hr
    | error e => simp at h
  | succ m ih =>
    intro k f pos n h
    unfold downloadToTempFile.go at h
    rcases hr : runDownloadAttempt (atts k) with ⟨r, p'⟩
    rw [hr] at h
    cases r with
    | ok f' =>
      simp only [Prod.mk.injEq, Except.ok.injEq] at h
      obtain ⟨rfl, rfl, rfl⟩ := h
      refine ⟨le_refl _, by omega, ?_, ?_⟩
      · intro j hkj hj
        omega
      · simpa using hr
    | error e =>
      obtain ⟨h1, h2, h3, h4⟩ := ih (k + 1) f pos n h
      refine ⟨by omega, by omega, ?_, h4⟩
      intro j hkj hj
      rcases Nat.lt_or_ge j (k + 1) with hlt | hge
      · have : j = k := by omega
        subst this
        rw [hr]
        rfl
      · exact h3 j hge hj

/-- C10: whenever the download retry loop returns a temp file, that
file holds exactly the concatenated chunk payloads streamed by the one
successful attempt — every earlier attempt failed and contributed
nothing to the returned file — and the progress position, reset to
zero at the start of each attempt (each of which also creates a fresh
temp file), ends at exactly the byte count of that single attempt. -/
theorem download_result_from_single_attempt (atts : Nat → DownloadAttempt)
    (f : List Nat) (pos n : Nat)
    (h : downloadToTempFile atts = (.ok f, pos, n)) :
    1 ≤ n ∧ n ≤ 4
  ∧ (∀ j, j + 1 < n → (runDownloadAttempt (atts j)).1.isOk = false)
  ∧ (atts (n - 1)).response = .ok ()
  ∧ (∃ payloads : List (List Nat),
      (atts (n - 1)).chunks = payloads.map .ok ∧ f = payloads.flatten)
  ∧ pos = f.length := by
  unfold downloadToTempFile at h
  obtain ⟨h1, h2, h3, h4⟩ := downloadGo_ok atts 3 0 f pos n h
  have hresp : (atts (n - 1)).response = .ok () := by
    unfold runDownloadAttempt at h4
    cases hre : (atts (n - 1)).response with
    | error e =>
      rw [hre] at h4
      simp at h4
    | ok u => cases u; rfl
  refine ⟨h1, by omega, fun j hj => h3 j (Nat.zero_le j) hj, hresp, ?_, ?_⟩
  · unfold runDownloadAttempt at h4
    rw [hresp] at h4
    obtain ⟨ps, hchunks, hf, _⟩ := writeChunks_ok _ [] 0 f pos h4
    exact ⟨ps, hchunks, by simpa using hf⟩
  · unfold runDownloadAttempt at h4
    rw [hresp] at h4
    obtain ⟨ps, _, hf, hpos⟩ := writeChunks_ok _ [] 0 f pos h4
    rw [hpos, hf]
    simp

/-- C10 witness: first attempt fails on the network, the second
attempt streams `[1,2]` then `[3]`; the returned file is `[1,2,3]` and
the bar ends at 3. -/
theorem download_result_from_single_attempt_witness :
    1 ≤ 2 ∧ 2 ≤ 4
  ∧ (∀ j, j + 1 < 2 →
      ((runDownloadAttempt ((fun k => if k = 0 then
          (⟨.error "connection reset", []⟩ : DownloadAttempt)
        else ⟨.ok (), [.ok [1, 2], .ok [3]]⟩) j)).1.isOk
        = false))
  ∧ ((fun k => if k = 0 then (⟨.error "connection reset", []⟩ : DownloadAttempt)
        else ⟨.ok (), [.ok [1, 2], .ok [3]]⟩) (2 - 1)).response = .ok ()
  ∧ (∃ payloads : List (List Nat),
      ((fun k => if k = 0 then (⟨.error "connection reset", []⟩ : DownloadAttempt)
        else ⟨.ok (), [.ok [1, 2], .ok [3]]⟩) (2 - 1)).chunks
        = payloads.map .ok
      ∧ [1, 2, 3] = payloads.flatten)
  ∧ 3 = [1, 2, 3].length :=
  download_result_from_single_attempt
    (fun k => if k = 0 then ⟨.error "connection reset", []⟩
      else ⟨.ok (), [.ok [1, 2], .ok [3]]⟩)
    [1, 2, 3] 3 2 rfl

end Isoterm
